import Mathlib

/-!
Verification of the public-suffix-list `newgtlds` dat-file splice engine.

Text is embedded as `List Char` (one Go `string` byte/rune sequence per
value); a file's line sequence is recovered with `splitLines`, the shallow
embedding of Go `strings.Split(s, "\n")`, and re-serialized with
`joinLines`, the embedding of `strings.Join(lines, "\n")`.
-/

namespace NewGTLDs

/-- Embedding of Go `strings.Split(s, "\n")`, as an auxiliary returning the
first line together with the remaining lines. -/
def splitLinesCore : List Char → List Char × List (List Char)
  | [] => ([], [])
  | c :: rest =>
    let r := splitLinesCore rest
    if c = '\n' then ([], r.1 :: r.2) else (c :: r.1, r.2)

/-- Embedding of Go `strings.Split(s, "\n")`: the list of lines of `s`.
Never empty; `splitLines [] = [[]]` just as `strings.Split("", "\n")`
is `[""]`. -/
def splitLines (s : List Char) : List (List Char) :=
  (splitLinesCore s).1 :: (splitLinesCore s).2

/-- Embedding of Go `strings.Join(parts, sep)`. -/
def joinStrings (sep : List Char) : List (List Char) → List Char
  | [] => []
  | [s] => s
  | s :: rest => s ++ sep ++ joinStrings sep rest

/-- Embedding of Go `strings.Join(lines, "\n")`. -/
def joinLines (lines : List (List Char)) : List Char :=
  joinStrings ['\n'] lines

/-- `PSL_GTLDS_SECTION_HEADER` from `gtlds.go`: marks the start of the
newGTLDs section of the public suffix dat file. -/
def PSL_GTLDS_SECTION_HEADER : List Char := "// newGTLDs".data

/-- `PSL_GTLDS_SECTION_FOOTER` from `gtlds.go`: marks the end of the
newGTLDs section of the public suffix dat file. -/
def PSL_GTLDS_SECTION_FOOTER : List Char := "// ===END ICANN DOMAINS===".data

/-- The error values of `errors.go` and the two `errors.New`/`errors.New`
failures of `icann.go`'s `GetGTLDs`, plus the `processGTLDs` span-size
error. Carried data mirrors the Go error structs. -/
inductive datError where
  | errNoHeader
  | errMultipleHeaders
  | errNoFooter
  | errInvertedSpan (startIndex endIndex : Nat)
  | errSpanOutOfBounds (startIndex endIndex numLines : Nat)
  | errSpanDataTooSmall
  | errNoGTLDInfo
  | errNoGTLDsAfterFilter
deriving DecidableEq, Repr

/-- `gTLDDatSpan` from `gtlds.go`: the span between the section header and
footer in the PSL dat file. Go `int` indices are embedded as `Nat`; every
value the program constructs is non-negative, and the `<= 0` guards of
`validate` are translated literally. -/
structure gTLDDatSpan where
  startIndex : Nat
  endIndex : Nat
deriving DecidableEq, Repr

/-- `gTLDDatSpan.validate` from `gtlds.go`: `none` plays Go's `nil` error. -/
def gTLDDatSpan.validate (s : gTLDDatSpan) : Option datError :=
  if s.startIndex ≤ 0 then some .errNoHeader
  else if s.endIndex ≤ 0 then some .errNoFooter
  else if s.endIndex ≤ s.startIndex then
    some (.errInvertedSpan s.startIndex s.endIndex)
  else none

/-- `datFile` from `gtlds.go`: the dat file's lines and the gTLD span. -/
structure datFile where
  lines : List (List Char)
  gTLDSpan : gTLDDatSpan
deriving DecidableEq, Repr

/-- `datFile.validate` from `gtlds.go`. -/
def datFile.validate (d : datFile) : Option datError :=
  match d.gTLDSpan.validate with
  | some e => some e
  | none =>
    if d.gTLDSpan.endIndex ≥ d.lines.length then
      some (.errSpanOutOfBounds d.gTLDSpan.startIndex d.gTLDSpan.endIndex
        d.lines.length)
    else none

/-- `datFile.getGTLDLines` from `gtlds.go`: the slice
`d.lines[startIndex:endIndex]`, or the validation error. -/
def datFile.getGTLDLines (d : datFile) : Except datError (List (List Char)) :=
  match d.validate with
  | some e => .error e
  | none =>
    .ok ((d.lines.drop d.gTLDSpan.startIndex).take
      (d.gTLDSpan.endIndex - d.gTLDSpan.startIndex))

/-- `datFile.ReplaceGTLDContent` from `gtlds.go`. The Go method mutates the
receiver through a pointer and returns an error; the embedding returns the
receiver's state after the call together with the error (`none` = `nil`).
On a validation error the method returns before any assignment, so the
first component is the unchanged file. -/
def datFile.ReplaceGTLDContent (d : datFile) (content : List Char) :
    datFile × Option datError :=
  match d.validate with
  | some e => (d, some e)
  | none =>
    let contentLines := splitLines content
    let beforeLines := d.lines.take d.gTLDSpan.startIndex
    let afterLines := d.lines.drop d.gTLDSpan.endIndex
    let newLines := beforeLines ++ contentLines ++ afterLines
    ({ lines := newLines,
       gTLDSpan := { startIndex := d.gTLDSpan.startIndex,
                     endIndex := beforeLines.length + contentLines.length } },
     none)

/-- `datFile.String` from `gtlds.go`: the lines joined by `"\n"`. -/
def datFile.String (d : datFile) : List Char :=
  joinLines d.lines

/-- The scanning loop of `readDatFileContent` from `gtlds.go`, translated
branch for branch: `i` is the loop counter, `h`/`f` the `headerIndex` and
`footerIndex` accumulators (both start at `0`, which doubles as the
not-yet-seen marker), and the trailing `if` of each branch is the loop's
break-when-both-found check evaluated on the updated accumulators. -/
def scanLoop : List (List Char) → Nat → Nat → Nat →
    Except datError (Nat × Nat)
  | [], _, h, f => .ok (h, f)
  | line :: rest, i, h, f =>
    if line = PSL_GTLDS_SECTION_HEADER ∧ h = 0 then
      if i ≠ 0 ∧ f ≠ 0 then .ok (i, f) else scanLoop rest (i + 1) i f
    else if line = PSL_GTLDS_SECTION_HEADER ∧ h ≠ 0 then
      .error .errMultipleHeaders
    else if line = PSL_GTLDS_SECTION_FOOTER ∧ f = 0 then
      if h ≠ 0 ∧ i ≠ 0 then .ok (h, i) else scanLoop rest (i + 1) h i
    else
      if h ≠ 0 ∧ f ≠ 0 then .ok (h, f) else scanLoop rest (i + 1) h f

/-- `readDatFileContent` from `gtlds.go`: split the text into lines, scan
for the sentinel pair, and validate the resulting span. -/
def readDatFileContent (pslData : List Char) : Except datError datFile :=
  let pslDatLines := splitLines pslData
  match scanLoop pslDatLines 0 0 0 with
  | .error e => .error e
  | .ok (headerIndex, footerIndex) =>
    if headerIndex = 0 then .error .errNoHeader
    else if footerIndex = 0 then .error .errNoFooter
    else
      let df : datFile :=
        { lines := pslDatLines,
          gTLDSpan := { startIndex := headerIndex + 1,
                        endIndex := footerIndex } }
      match df.validate with
      | some e => .error e
      | none => .ok df

/-- The character set of Go `unicode.IsSpace`, used by `strings.TrimSpace`. -/
def isGoSpace (c : Char) : Bool :=
  c = ' ' || c = '\t' || c = '\n' || c = '\x0b' || c = '\x0c' || c = '\r' ||
  c = '\u0085' || c = ' ' || c = ' ' ||
  (' ' ≤ c && c ≤ ' ') || c = ' ' || c = ' ' ||
  c = ' ' || c = ' ' || c = '　'

/-- Embedding of Go `strings.TrimSpace`. -/
def trimSpace (s : List Char) : List Char :=
  ((s.dropWhile isGoSpace).reverse.dropWhile isGoSpace).reverse

/-- `GTLDEntry` from `icann.go`: one record of the ICANN gTLD JSON
registry. String fields are embedded as `List Char`. -/
structure GTLDEntry where
  ALabel : List Char
  ULabel : List Char
  RegistryOperator : List Char
  DateOfContractSignature : List Char
  DateOfDelegation : List Char
  ContractTerminated : Bool
  RemovalDate : List Char
deriving DecidableEq, Repr

/-- `GTLDEntry.Normalize` from `icann.go`: trim the string fields and
default the `ULabel` to the `ALabel` when empty. (`DateOfDelegation` and
`RemovalDate` are not trimmed by the Go code.) -/
def GTLDEntry.Normalize (e : GTLDEntry) : GTLDEntry :=
  let a := trimSpace e.ALabel
  let u := trimSpace e.ULabel
  { e with
    ALabel := a
    ULabel := if u = [] then a else u
    RegistryOperator := trimSpace e.RegistryOperator
    DateOfContractSignature := trimSpace e.DateOfContractSignature }

/-- `GTLDEntry.Comment` from `icann.go`: the `// <ALabel> : <date> ...`
comment line, built by joining the parts with single spaces. -/
def GTLDEntry.Comment (e : GTLDEntry) : List Char :=
  let parts := ["//".data, e.ALabel, ":".data, e.DateOfContractSignature]
  let parts := if e.RegistryOperator ≠ [] then
    parts ++ [e.RegistryOperator] else parts
  let parts := if e.ContractTerminated then
    parts ++ ["(cancelled)".data] else parts
  joinStrings [' '] parts

/-- `legacyGTLDs` from `icann.go`: the static pre-2012 gTLD name set (the
Go map's key set). -/
def legacyGTLDs : List (List Char) :=
  ["aero", "asia", "biz", "cat", "com", "coop", "info", "jobs", "mobi",
   "museum", "name", "net", "org", "post", "pro", "tel", "xxx"].map
    String.data

/-- `IsLegacyGTLD` from `icann.go`: lowercase the name (Go
`strings.ToLower`, embedded as per-character lowercasing) and test
membership in `legacyGTLDs`. -/
def IsLegacyGTLD (tld : List Char) : Bool :=
  legacyGTLDs.contains (tld.map Char.toLower)

/-- `filterGTLDs` from `icann.go`: drop legacy gTLDs, entries terminated
before delegation, and removed entries, keeping the rest in order. -/
def filterGTLDs : List GTLDEntry → List GTLDEntry
  | [] => []
  | entry :: rest =>
    if IsLegacyGTLD entry.ALabel then filterGTLDs rest
    else if entry.ContractTerminated ∧ entry.DateOfDelegation = [] then
      filterGTLDs rest
    else if entry.RemovalDate ≠ [] then filterGTLDs rest
    else entry :: filterGTLDs rest

/-- The exclusion predicate exactly as the specification words it (§4.2):
an entry is excluded iff its `aLabel` is case-insensitively a member of
the fixed legacy gTLD set, or `contractTerminated` is true with an empty
`dateOfDelegation`, or `removalDate` is non-empty. Stated independently of
`filterGTLDs` so the code can be compared against it. -/
def specExcluded (e : GTLDEntry) : Prop :=
  (e.ALabel.map Char.toLower) ∈ legacyGTLDs ∨
  (e.ContractTerminated = true ∧ e.DateOfDelegation = []) ∨
  e.RemovalDate ≠ []

instance (e : GTLDEntry) : Decidable (specExcluded e) := by
  unfold specExcluded
  infer_instance

/-- Steps 2–4 of `GetGTLDs` from `icann.go`, parametrized by the list of
entries the JSON payload unmarshaled to (the HTTP fetch and JSON decoding
themselves are external I/O): error when the unmarshaled list is empty,
otherwise normalize, filter, and error when nothing survives the filter. -/
def getGTLDsFromEntries (unmarshaled : List GTLDEntry) :
    Except datError (List GTLDEntry) :=
  if unmarshaled.length = 0 then .error .errNoGTLDInfo
  else
    let normalized := unmarshaled.map GTLDEntry.Normalize
    let filtered := filterGTLDs normalized
    if filtered.length = 0 then .error .errNoGTLDsAfterFilter
    else .ok filtered

/-- An apostrophe character, spelled via its code point. -/
def apos : Char := Char.ofNat 39

/-- `renderGTLDHeader` from `gtlds.go`: the rendered
`pslGTLDHeaderTemplate`, parametrized by the source URL and by the
RFC3339/UTC timestamp string the injected clock produced. The template
text starts with a newline and has one newline between its two comment
lines. -/
def renderGTLDHeader (url timestamp : List Char) : List Char :=
  '\n' :: ("// List of new gTLDs imported from ".data ++ url ++
    " on ".data ++ timestamp) ++
  '\n' :: ("// This list is auto-generated, don".data ++ apos ::
    "t edit it manually.".data)

/-- `renderGTLDData` from `gtlds.go`: the rendered `pslGTLDTemplate` —
for each entry its comment line, its unicode label line, and a blank
line. -/
def renderGTLDData (entries : List GTLDEntry) : List Char :=
  (entries.map (fun e =>
    e.Comment ++ '\n' :: e.ULabel ++ ['\n', '\n'])).flatten

/-- `processGTLDs` from `gtlds.go`. The Go function fetches entries via
`icann.GetGTLDs(dataURL)` and renders the header with the injected clock;
the embedding is parametrized by the fetch outcome and by the clock's
rendered timestamp. It returns the dat file's state after the call
together with the Go return value (final text or error). -/
def processGTLDs (d : datFile) (fetched : Except datError (List GTLDEntry))
    (url timestamp : List Char) : datFile × Except datError (List Char) :=
  match d.getGTLDLines with
  | .error e => (d, .error e)
  | .ok spanLines =>
    let newHeader := renderGTLDHeader url timestamp
    let newHeaderLines := splitLines newHeader
    let headerLen := newHeaderLines.length
    if spanLines.length ≤ headerLen then (d, .error .errSpanDataTooSmall)
    else
      let existingData := joinLines (spanLines.drop headerLen)
      match fetched with
      | .error e => (d, .error e)
      | .ok entries =>
        let newData := renderGTLDData entries
        if newData ≠ existingData then
          match d.ReplaceGTLDContent (newHeader ++ '\n' :: newData) with
          | (d', some e) => (d', .error e)
          | (d', none) => (d', .ok d'.String)
        else (d, .ok d.String)

/-! ### Lemmas about line splitting and joining -/

theorem splitLines_eq (s : List Char) :
    splitLines s = (splitLinesCore s).1 :: (splitLinesCore s).2 := rfl

theorem splitLines_ne_nil (s : List Char) : splitLines s ≠ [] := by
  simp [splitLines]

theorem length_splitLines_pos (s : List Char) : 0 < (splitLines s).length := by
  simp [splitLines]

theorem joinStrings_cons₂ (sep : List Char) (s t : List Char)
    (rest : List (List Char)) :
    joinStrings sep (s :: t :: rest) = s ++ sep ++ joinStrings sep (t :: rest) :=
  rfl

theorem joinLines_nil : joinLines [] = [] := rfl

theorem joinLines_single (l : List Char) : joinLines [l] = l := rfl

theorem joinLines_cons₂ (l t : List Char) (rest : List (List Char)) :
    joinLines (l :: t :: rest) = l ++ '\n' :: joinLines (t :: rest) := by
  show joinStrings ['\n'] (l :: t :: rest) = _
  rw [joinStrings_cons₂]
  simp [joinLines]

theorem splitLinesCore_cons_newline (rest : List Char) :
    splitLinesCore ('\n' :: rest) =
      ([], (splitLinesCore rest).1 :: (splitLinesCore rest).2) := by
  simp [splitLinesCore]

theorem splitLinesCore_cons_other {c : Char} (hc : c ≠ '\n')
    (rest : List Char) :
    splitLinesCore (c :: rest) =
      (c :: (splitLinesCore rest).1, (splitLinesCore rest).2) := by
  simp [splitLinesCore, hc]

theorem splitLinesCore_no_newline {s : List Char} (h : '\n' ∉ s) :
    splitLinesCore s = (s, []) := by
  induction s with
  | nil => rfl
  | cons c rest ih =>
    simp only [List.mem_cons, not_or] at h
    have hc : c ≠ '\n' := fun hq => h.1 hq.symm
    rw [splitLinesCore_cons_other hc, ih h.2]

theorem splitLines_no_newline {s : List Char} (h : '\n' ∉ s) :
    splitLines s = [s] := by
  simp [splitLines, splitLinesCore_no_newline h]

theorem no_newline_splitLinesCore (s : List Char) :
    '\n' ∉ (splitLinesCore s).1 ∧
      ∀ l ∈ (splitLinesCore s).2, '\n' ∉ l := by
  induction s with
  | nil => simp [splitLinesCore]
  | cons c rest ih =>
    by_cases hc : c = '\n'
    · subst hc
      rw [splitLinesCore_cons_newline]
      refine ⟨by simp, ?_⟩
      intro l hl
      rcases List.mem_cons.1 hl with rfl | hl
      · exact ih.1
      · exact ih.2 l hl
    · rw [splitLinesCore_cons_other hc]
      exact ⟨by simpa using ⟨Ne.symm hc, ih.1⟩, ih.2⟩

theorem no_newline_of_mem_splitLines {s l : List Char}
    (h : l ∈ splitLines s) : '\n' ∉ l := by
  rw [splitLines_eq] at h
  rcases List.mem_cons.1 h with rfl | h
  · exact (no_newline_splitLinesCore s).1
  · exact (no_newline_splitLinesCore s).2 l h

theorem splitLinesCore_append_newline (a b : List Char) :
    splitLinesCore (a ++ '\n' :: b) =
      ((splitLinesCore a).1, (splitLinesCore a).2 ++ splitLines b) := by
  induction a with
  | nil =>
    rw [List.nil_append, splitLinesCore_cons_newline]
    rfl
  | cons c rest ih =>
    by_cases hc : c = '\n'
    · subst hc
      rw [List.cons_append, splitLinesCore_cons_newline,
        splitLinesCore_cons_newline, ih]
      rfl
    · rw [List.cons_append, splitLinesCore_cons_other hc,
        splitLinesCore_cons_other hc, ih]

theorem splitLines_append_newline (a b : List Char) :
    splitLines (a ++ '\n' :: b) = splitLines a ++ splitLines b := by
  simp [splitLines, splitLinesCore_append_newline]

theorem joinLines_splitLines (s : List Char) : joinLines (splitLines s) = s := by
  induction s with
  | nil => rfl
  | cons c rest ih =>
    by_cases hc : c = '\n'
    · subst hc
      rw [splitLines_eq, splitLinesCore_cons_newline]
      show joinLines ([] :: (splitLinesCore rest).1 :: (splitLinesCore rest).2) =
        '\n' :: rest
      rw [joinLines_cons₂, ← splitLines_eq, ih]
      rfl
    · rw [splitLines_eq, splitLinesCore_cons_other hc]
      rw [splitLines_eq] at ih
      rcases h2 : (splitLinesCore rest).2 with _ | ⟨y, ys⟩
      · rw [h2] at ih
        rw [joinLines_single] at ih
        show joinLines [c :: (splitLinesCore rest).1] = c :: rest
        rw [joinLines_single, ih]
      · rw [h2] at ih
        rw [joinLines_cons₂] at ih
        show joinLines ((c :: (splitLinesCore rest).1) :: y :: ys) = c :: rest
        rw [joinLines_cons₂, List.cons_append, ih]

theorem splitLines_joinLines (ls : List (List Char)) (hne : ls ≠ [])
    (hnl : ∀ l ∈ ls, '\n' ∉ l) : splitLines (joinLines ls) = ls := by
  induction ls with
  | nil => exact absurd rfl hne
  | cons l rest ih =>
    rcases rest with _ | ⟨t, ts⟩
    · rw [joinLines_single]
      exact splitLines_no_newline (hnl l (by simp))
    · rw [joinLines_cons₂]
      rw [splitLines_append_newline]
      rw [splitLines_no_newline (hnl l (by simp))]
      rw [ih (by simp) (fun x hx => hnl x (List.mem_cons_of_mem l hx))]
      rfl

/-! ### Lemmas about the sentinel scan -/

theorem header_ne_footer :
    PSL_GTLDS_SECTION_HEADER ≠ PSL_GTLDS_SECTION_FOOTER := by decide

theorem scanLoop_nil (i h f : Nat) : scanLoop [] i h f = .ok (h, f) := rfl

/-- Stepping the scan over a line that is neither sentinel leaves the
accumulators unchanged (up to the break check). -/
theorem scanLoop_cons_skip {line : List Char}
    (hH : line ≠ PSL_GTLDS_SECTION_HEADER)
    (hF : line ≠ PSL_GTLDS_SECTION_FOOTER)
    (rest : List (List Char)) (i h f : Nat) :
    scanLoop (line :: rest) i h f =
      if h ≠ 0 ∧ f ≠ 0 then .ok (h, f) else scanLoop rest (i + 1) h f := by
  simp [scanLoop, hH, hF]

theorem scanLoop_cons_header_new (rest : List (List Char)) (i f : Nat) :
    scanLoop (PSL_GTLDS_SECTION_HEADER :: rest) i 0 f =
      if i ≠ 0 ∧ f ≠ 0 then .ok (i, f) else scanLoop rest (i + 1) i f := by
  simp [scanLoop]

theorem scanLoop_cons_header_seen (rest : List (List Char)) (i h f : Nat)
    (hh : h ≠ 0) :
    scanLoop (PSL_GTLDS_SECTION_HEADER :: rest) i h f =
      .error .errMultipleHeaders := by
  simp [scanLoop, hh]

theorem scanLoop_cons_footer_new (rest : List (List Char)) (i h : Nat) :
    scanLoop (PSL_GTLDS_SECTION_FOOTER :: rest) i h 0 =
      if h ≠ 0 ∧ i ≠ 0 then .ok (h, i) else scanLoop rest (i + 1) h i := by
  simp [scanLoop, header_ne_footer, Ne.symm header_ne_footer]

theorem scanLoop_cons_footer_seen (rest : List (List Char)) (i h f : Nat)
    (hf : f ≠ 0) :
    scanLoop (PSL_GTLDS_SECTION_FOOTER :: rest) i h f =
      if h ≠ 0 ∧ f ≠ 0 then .ok (h, f) else scanLoop rest (i + 1) h f := by
  simp [scanLoop, Ne.symm header_ne_footer, hf]

/-- Scanning lines that contain neither sentinel changes nothing. -/
theorem scanLoop_skip (xs : List (List Char))
    (hxs : ∀ l ∈ xs, l ≠ PSL_GTLDS_SECTION_HEADER ∧
      l ≠ PSL_GTLDS_SECTION_FOOTER) (i h f : Nat) :
    scanLoop xs i h f = .ok (h, f) := by
  induction xs generalizing i with
  | nil => rfl
  | cons line rest ih =>
    have hl := hxs line (by simp)
    rw [scanLoop_cons_skip hl.1 hl.2]
    split
    · rfl
    · exact ih (fun l hl => hxs l (List.mem_cons_of_mem line hl)) (i + 1)

/-- If the scan of `xs` falls off the end of the list (it returns a state
in which the break condition does not hold), scanning `xs ++ ys` continues
into `ys` from that state. -/
theorem scanLoop_append_of_fallthrough {xs : List (List Char)}
    {i h f h' f' : Nat}
    (hscan : scanLoop xs i h f = .ok (h', f'))
    (hnb : ¬(h' ≠ 0 ∧ f' ≠ 0)) (ys : List (List Char)) :
    scanLoop (xs ++ ys) i h f = scanLoop ys (i + xs.length) h' f' := by
  induction xs generalizing i h f with
  | nil =>
    rw [scanLoop_nil] at hscan
    obtain ⟨rfl, rfl⟩ : h = h' ∧ f = f' := by
      simpa using hscan
    simp
  | cons line rest ih =>
    by_cases hH : line = PSL_GTLDS_SECTION_HEADER
    · subst hH
      by_cases hh : h = 0
      · subst hh
        rw [scanLoop_cons_header_new] at hscan
        rw [List.cons_append, scanLoop_cons_header_new]
        split at hscan
        · obtain ⟨rfl, rfl⟩ : i = h' ∧ f = f' := by simpa using hscan
          exact absurd (by tauto) hnb
        · rename_i hb
          rw [if_neg hb, ih hscan, List.length_cons,
            Nat.add_comm rest.length 1, ← Nat.add_assoc]
      · rw [scanLoop_cons_header_seen _ _ _ _ hh] at hscan
        exact absurd hscan (by simp)
    · by_cases hF : line = PSL_GTLDS_SECTION_FOOTER
      · subst hF
        by_cases hf : f = 0
        · subst hf
          rw [scanLoop_cons_footer_new] at hscan
          rw [List.cons_append, scanLoop_cons_footer_new]
          split at hscan
          · obtain ⟨rfl, rfl⟩ : h = h' ∧ i = f' := by simpa using hscan
            exact absurd (by tauto) hnb
          · rename_i hb
            rw [if_neg hb, ih hscan, List.length_cons,
              Nat.add_comm rest.length 1, ← Nat.add_assoc]
        · rw [scanLoop_cons_footer_seen _ _ _ _ hf] at hscan
          rw [List.cons_append, scanLoop_cons_footer_seen _ _ _ _ hf]
          split at hscan
          · rename_i hb
            obtain ⟨rfl, rfl⟩ : h = h' ∧ f = f' := by simpa using hscan
            exact absurd hb hnb
          · rename_i hb
            rw [if_neg hb, ih hscan, List.length_cons,
              Nat.add_comm rest.length 1, ← Nat.add_assoc]
      · rw [scanLoop_cons_skip hH hF] at hscan
        rw [List.cons_append, scanLoop_cons_skip hH hF]
        split at hscan
        · rename_i hb
          obtain ⟨rfl, rfl⟩ : h = h' ∧ f = f' := by simpa using hscan
          exact absurd hb hnb
        · rename_i hb
          rw [if_neg hb, ih hscan, List.length_cons,
            Nat.add_comm rest.length 1, ← Nat.add_assoc]

/-- No line of `xs` is the header sentinel: the header accumulator never
moves, whatever the scan does with footers. -/
theorem scanLoop_noHeader (xs : List (List Char))
    (hxs : PSL_GTLDS_SECTION_HEADER ∉ xs) (i h f : Nat) :
    ∃ f', scanLoop xs i h f = .ok (h, f') := by
  induction xs generalizing i f with
  | nil => exact ⟨f, rfl⟩
  | cons line rest ih =>
    simp only [List.mem_cons, not_or] at hxs
    have hH : line ≠ PSL_GTLDS_SECTION_HEADER := fun hq => hxs.1 hq.symm
    have ihr := fun i f => ih hxs.2 i f
    by_cases hF : line = PSL_GTLDS_SECTION_FOOTER
    · subst hF
      by_cases hf : f = 0
      · subst hf
        rw [scanLoop_cons_footer_new]
        split
        · exact ⟨i, rfl⟩
        · exact ihr (i + 1) i
      · rw [scanLoop_cons_footer_seen _ _ _ _ hf]
        split
        · exact ⟨f, rfl⟩
        · exact ihr (i + 1) f
    · rw [scanLoop_cons_skip hH hF]
      split
      · exact ⟨f, rfl⟩
      · exact ihr (i + 1) f

theorem length_ne_zero_of_ne_nil {α : Type} {l : List α} (h : l ≠ []) :
    l.length ≠ 0 := by
  simpa using h

/-- Scanning a well-formed file: non-sentinel prefix, header, non-sentinel
section, footer. The scan records both indices and breaks at the footer,
never looking at `rest`. -/
theorem scanLoop_locate (pre mid rest : List (List Char))
    (hpre : pre ≠ [])
    (hpreH : PSL_GTLDS_SECTION_HEADER ∉ pre)
    (hpreF : PSL_GTLDS_SECTION_FOOTER ∉ pre)
    (hmidH : PSL_GTLDS_SECTION_HEADER ∉ mid)
    (hmidF : PSL_GTLDS_SECTION_FOOTER ∉ mid) :
    scanLoop (pre ++ (PSL_GTLDS_SECTION_HEADER ::
      (mid ++ PSL_GTLDS_SECTION_FOOTER :: rest))) 0 0 0 =
      .ok (pre.length, pre.length + 1 + mid.length) := by
  have hskipPre : scanLoop pre 0 0 0 = .ok (0, 0) :=
    scanLoop_skip pre
      (fun l hl => ⟨fun hq => hpreH (hq ▸ hl), fun hq => hpreF (hq ▸ hl)⟩) 0 0 0
  rw [scanLoop_append_of_fallthrough hskipPre (by simp), Nat.zero_add,
    scanLoop_cons_header_new, if_neg (by simp)]
  have hskipMid : scanLoop mid (pre.length + 1) pre.length 0 =
      .ok (pre.length, 0) :=
    scanLoop_skip mid
      (fun l hl => ⟨fun hq => hmidH (hq ▸ hl), fun hq => hmidF (hq ▸ hl)⟩) _ _ _
  rw [scanLoop_append_of_fallthrough hskipMid (by simp),
    scanLoop_cons_footer_new,
    if_pos ⟨length_ne_zero_of_ne_nil hpre, by omega⟩]

/-- Scanning a file whose second header occurrence comes before any footer
is the duplicate-header hard error. -/
theorem scanLoop_multiheader (pre mid rest : List (List Char))
    (hpre : pre ≠ [])
    (hpreH : PSL_GTLDS_SECTION_HEADER ∉ pre)
    (hpreF : PSL_GTLDS_SECTION_FOOTER ∉ pre)
    (hmidH : PSL_GTLDS_SECTION_HEADER ∉ mid)
    (hmidF : PSL_GTLDS_SECTION_FOOTER ∉ mid) :
    scanLoop (pre ++ (PSL_GTLDS_SECTION_HEADER ::
      (mid ++ PSL_GTLDS_SECTION_HEADER :: rest))) 0 0 0 =
      .error .errMultipleHeaders := by
  have hskipPre : scanLoop pre 0 0 0 = .ok (0, 0) :=
    scanLoop_skip pre
      (fun l hl => ⟨fun hq => hpreH (hq ▸ hl), fun hq => hpreF (hq ▸ hl)⟩) 0 0 0
  rw [scanLoop_append_of_fallthrough hskipPre (by simp), Nat.zero_add,
    scanLoop_cons_header_new, if_neg (by simp)]
  have hskipMid : scanLoop mid (pre.length + 1) pre.length 0 =
      .ok (pre.length, 0) :=
    scanLoop_skip mid
      (fun l hl => ⟨fun hq => hmidH (hq ▸ hl), fun hq => hmidF (hq ▸ hl)⟩) _ _ _
  rw [scanLoop_append_of_fallthrough hskipMid (by simp),
    scanLoop_cons_header_seen _ _ _ _ (length_ne_zero_of_ne_nil hpre)]

/-- Scanning a file with a single (positive-index) header and no footer
records the header index only. -/
theorem scanLoop_headerOnly (pre rest : List (List Char))
    (hpreH : PSL_GTLDS_SECTION_HEADER ∉ pre)
    (hpreF : PSL_GTLDS_SECTION_FOOTER ∉ pre)
    (hrestH : PSL_GTLDS_SECTION_HEADER ∉ rest)
    (hrestF : PSL_GTLDS_SECTION_FOOTER ∉ rest) :
    scanLoop (pre ++ (PSL_GTLDS_SECTION_HEADER :: rest)) 0 0 0 =
      .ok (pre.length, 0) := by
  have hskipPre : scanLoop pre 0 0 0 = .ok (0, 0) :=
    scanLoop_skip pre
      (fun l hl => ⟨fun hq => hpreH (hq ▸ hl), fun hq => hpreF (hq ▸ hl)⟩) 0 0 0
  rw [scanLoop_append_of_fallthrough hskipPre (by simp), Nat.zero_add,
    scanLoop_cons_header_new, if_neg (by simp)]
  exact scanLoop_skip rest
    (fun l hl => ⟨fun hq => hrestH (hq ▸ hl), fun hq => hrestF (hq ▸ hl)⟩) _ _ _

/-! ### Lemmas about validation, extraction and replacement -/

theorem span_validate_none_iff (s : gTLDDatSpan) :
    s.validate = none ↔ 0 < s.startIndex ∧ s.startIndex < s.endIndex := by
  unfold gTLDDatSpan.validate
  split_ifs <;> simp <;> omega

theorem datFile_validate_none_iff (d : datFile) :
    d.validate = none ↔ 0 < d.gTLDSpan.startIndex ∧
      d.gTLDSpan.startIndex < d.gTLDSpan.endIndex ∧
      d.gTLDSpan.endIndex < d.lines.length := by
  unfold datFile.validate
  rcases hv : d.gTLDSpan.validate with _ | e
  · rw [span_validate_none_iff] at hv
    split_ifs with h1 <;> simp <;> omega
  · have : ¬(0 < d.gTLDSpan.startIndex ∧
        d.gTLDSpan.startIndex < d.gTLDSpan.endIndex) := by
      rw [← span_validate_none_iff, hv]
      simp
    simp only []
    constructor
    · intro hc
      exact absurd hc (by simp)
    · intro hc
      exact absurd ⟨hc.1, hc.2.1⟩ this

theorem getGTLDLines_of_valid (d : datFile) (hv : d.validate = none) :
    d.getGTLDLines = .ok ((d.lines.drop d.gTLDSpan.startIndex).take
      (d.gTLDSpan.endIndex - d.gTLDSpan.startIndex)) := by
  unfold datFile.getGTLDLines
  rw [hv]

theorem length_spanLines (d : datFile) (hv : d.validate = none) :
    ((d.lines.drop d.gTLDSpan.startIndex).take
      (d.gTLDSpan.endIndex - d.gTLDSpan.startIndex)).length =
      d.gTLDSpan.endIndex - d.gTLDSpan.startIndex := by
  rw [List.length_take, List.length_drop]
  have := (datFile_validate_none_iff d).1 hv
  omega

theorem replace_of_valid (d : datFile) (c : List Char)
    (hv : d.validate = none) :
    d.ReplaceGTLDContent c =
      ({ lines := d.lines.take d.gTLDSpan.startIndex ++ splitLines c ++
          d.lines.drop d.gTLDSpan.endIndex,
         gTLDSpan := { startIndex := d.gTLDSpan.startIndex,
                       endIndex := d.gTLDSpan.startIndex +
                         (splitLines c).length } },
       none) := by
  have hlen : (d.lines.take d.gTLDSpan.startIndex).length =
      d.gTLDSpan.startIndex := by
    rw [List.length_take]
    have := (datFile_validate_none_iff d).1 hv
    omega
  unfold datFile.ReplaceGTLDContent
  rw [hv]
  simp only [hlen]

/-- Inversion for a successful parse: the lines are the split text and the
file validates. -/
theorem readDatFileContent_ok_inv {t : List Char} {df : datFile}
    (h : readDatFileContent t = .ok df) :
    df.lines = splitLines t ∧ df.validate = none := by
  simp only [readDatFileContent] at h
  split at h
  · exact Except.noConfusion h
  · split_ifs at h
    split at h
    · exact Except.noConfusion h
    · rename_i hval
      obtain rfl : _ = df := by simpa using h
      exact ⟨rfl, hval⟩

/-- Parsing a well-formed file succeeds with the span right after the
first header and ending at the footer, whatever follows the footer. -/
theorem readDatFileContent_locate (t : List Char)
    (pre mid rest : List (List Char))
    (hsplit : splitLines t = pre ++ (PSL_GTLDS_SECTION_HEADER ::
      (mid ++ PSL_GTLDS_SECTION_FOOTER :: rest)))
    (hpre : pre ≠ []) (hmid : mid ≠ [])
    (hpreH : PSL_GTLDS_SECTION_HEADER ∉ pre)
    (hpreF : PSL_GTLDS_SECTION_FOOTER ∉ pre)
    (hmidH : PSL_GTLDS_SECTION_HEADER ∉ mid)
    (hmidF : PSL_GTLDS_SECTION_FOOTER ∉ mid) :
    readDatFileContent t = .ok
      { lines := splitLines t,
        gTLDSpan := { startIndex := pre.length + 1,
                      endIndex := pre.length + 1 + mid.length } } := by
  have hlen : (splitLines t).length =
      pre.length + 1 + mid.length + 1 + rest.length := by
    rw [hsplit]
    simp
    omega
  have hval : datFile.validate
      { lines := splitLines t,
        gTLDSpan := { startIndex := pre.length + 1,
                      endIndex := pre.length + 1 + mid.length } } = none := by
    have hm : mid.length ≠ 0 := length_ne_zero_of_ne_nil hmid
    rw [datFile_validate_none_iff]
    show 0 < pre.length + 1 ∧ pre.length + 1 < pre.length + 1 + mid.length ∧
      pre.length + 1 + mid.length < (splitLines t).length
    rw [hlen]
    refine ⟨by omega, by omega, by omega⟩
  simp only [readDatFileContent]
  rw [hsplit, scanLoop_locate pre mid rest hpre hpreH hpreF hmidH hmidF]
  rw [← hsplit]
  simp only [if_neg (length_ne_zero_of_ne_nil hpre), if_neg (by omega : ¬
    pre.length + 1 + mid.length = 0), hval]

theorem datFile_validate_span_some (lines : List (List Char))
    {s : gTLDDatSpan} {e : datError} (h : s.validate = some e) :
    (datFile.mk lines s).validate = some e := by
  have hs : (datFile.mk lines s).gTLDSpan.validate = some e := h
  unfold datFile.validate
  rw [hs]

theorem span_validate_noHeader {s : gTLDDatSpan} (h : s.startIndex = 0) :
    s.validate = some .errNoHeader := by
  unfold gTLDDatSpan.validate
  rw [if_pos (by omega)]

theorem span_validate_noFooter {s : gTLDDatSpan} (h1 : 0 < s.startIndex)
    (h2 : s.endIndex = 0) : s.validate = some .errNoFooter := by
  unfold gTLDDatSpan.validate
  rw [if_neg (by omega), if_pos (by omega)]

theorem span_validate_inverted {s : gTLDDatSpan} (h1 : 0 < s.startIndex)
    (h2 : 0 < s.endIndex) (h3 : s.endIndex ≤ s.startIndex) :
    s.validate = some (.errInvertedSpan s.startIndex s.endIndex) := by
  unfold gTLDDatSpan.validate
  rw [if_neg (by omega), if_neg (by omega), if_pos h3]

/-! ### The claims -/

/-- C4: validation performs ordered checks where the first failure wins:
`startIndex > 0` else the missing-header error; then `endIndex > 0` else
the missing-footer error; then `endIndex > startIndex` else the
footer-precedes-header error carrying both indices; then
`endIndex < total line count` else the span-out-of-bounds error carrying
the span and the line count. A span with `endIndex ≤ startIndex` reports
footer-precedes-header and never out-of-bounds, even when both conditions
hold (the third conjunct holds for every `lines`). -/
theorem C4_validation_ordering (s : gTLDDatSpan) (lines : List (List Char)) :
    (s.startIndex = 0 →
      s.validate = some .errNoHeader ∧
      (datFile.mk lines s).validate = some .errNoHeader) ∧
    (0 < s.startIndex → s.endIndex = 0 →
      s.validate = some .errNoFooter ∧
      (datFile.mk lines s).validate = some .errNoFooter) ∧
    (0 < s.startIndex → 0 < s.endIndex → s.endIndex ≤ s.startIndex →
      s.validate = some (.errInvertedSpan s.startIndex s.endIndex) ∧
      (datFile.mk lines s).validate =
        some (.errInvertedSpan s.startIndex s.endIndex)) ∧
    (0 < s.startIndex → s.startIndex < s.endIndex →
      lines.length ≤ s.endIndex →
      (datFile.mk lines s).validate =
        some (.errSpanOutOfBounds s.startIndex s.endIndex lines.length)) ∧
    (0 < s.startIndex → s.startIndex < s.endIndex →
      s.endIndex < lines.length → (datFile.mk lines s).validate = none) := by
  refine ⟨?_, ?_, ?_, ?_, ?_⟩
  · intro h1
    exact ⟨span_validate_noHeader h1,
      datFile_validate_span_some lines (span_validate_noHeader h1)⟩
  · intro h1 h2
    exact ⟨span_validate_noFooter h1 h2,
      datFile_validate_span_some lines (span_validate_noFooter h1 h2)⟩
  · intro h1 h2 h3
    exact ⟨span_validate_inverted h1 h2 h3,
      datFile_validate_span_some lines (span_validate_inverted h1 h2 h3)⟩
  · intro h1 h2 h3
    have hs : (datFile.mk lines s).gTLDSpan.validate = none :=
      (span_validate_none_iff _).2 ⟨h1, h2⟩
    unfold datFile.validate
    rw [hs, if_pos (show (datFile.mk lines s).gTLDSpan.endIndex ≥
      (datFile.mk lines s).lines.length from h3)]
  · intro h1 h2 h3
    exact (datFile_validate_none_iff (datFile.mk lines s)).2 ⟨h1, h2, h3⟩

/-- C4 witness: the ordered checks evaluated on the spans of the Go unit
tests (`TestGTLDDatSpanValidate`, `TestDatFileValidate`). -/
theorem C4_validation_ordering_witness :
    (gTLDDatSpan.validate ⟨0, 0⟩ = some .errNoHeader ∧
      (datFile.mk [] ⟨0, 0⟩).validate = some .errNoHeader) ∧
    (gTLDDatSpan.validate ⟨10, 0⟩ = some .errNoFooter ∧
      (datFile.mk [] ⟨10, 0⟩).validate = some .errNoFooter) ∧
    (gTLDDatSpan.validate ⟨50, 10⟩ = some (.errInvertedSpan 50 10) ∧
      (datFile.mk [] ⟨50, 10⟩).validate = some (.errInvertedSpan 50 10)) ∧
    (datFile.mk [['o']] ⟨5, 10⟩).validate =
      some (.errSpanOutOfBounds 5 10 1) ∧
    (datFile.mk [[], [], [], []] ⟨2, 3⟩).validate = none := by
  refine ⟨?_, ?_, ?_, ?_, ?_⟩
  · exact (C4_validation_ordering ⟨0, 0⟩ []).1 (by decide)
  · exact (C4_validation_ordering ⟨10, 0⟩ []).2.1 (by decide) (by decide)
  · exact (C4_validation_ordering ⟨50, 10⟩ []).2.2.1 (by decide) (by decide)
      (by decide)
  · exact (C4_validation_ordering ⟨5, 10⟩ [['o']]).2.2.2.1 (by decide)
      (by decide) (by decide)
  · exact (C4_validation_ordering ⟨2, 3⟩ [[], [], [], []]).2.2.2.2 (by decide)
      (by decide) (by decide)

/-- C2: for every `datFile` that passes validation and every replacement
string `s`, `ReplaceGTLDContent s` succeeds (`nil` error), sets the line
sequence to `lines[0:startIndex] ++ split(s, newline) ++ lines[endIndex:]`,
updates `endIndex` to `startIndex` plus the number of replacement lines,
and leaves `startIndex` unchanged; the prefix up to `startIndex`
(including the header marker line at `startIndex - 1`) is preserved
verbatim. -/
theorem C2_replace_postcondition (d : datFile) (s : List Char)
    (hv : d.validate = none) :
    d.ReplaceGTLDContent s =
      ({ lines := d.lines.take d.gTLDSpan.startIndex ++ splitLines s ++
          d.lines.drop d.gTLDSpan.endIndex,
         gTLDSpan := { startIndex := d.gTLDSpan.startIndex,
                       endIndex := d.gTLDSpan.startIndex +
                         (splitLines s).length } }, none) ∧
    (d.ReplaceGTLDContent s).1.lines.take d.gTLDSpan.startIndex =
      d.lines.take d.gTLDSpan.startIndex := by
  have hr := replace_of_valid d s hv
  refine ⟨hr, ?_⟩
  rw [hr]
  have hlen : (d.lines.take d.gTLDSpan.startIndex).length =
      d.gTLDSpan.startIndex := by
    rw [List.length_take]
    have := (datFile_validate_none_iff d).1 hv
    omega
  rw [List.append_assoc, List.take_left' hlen]

/-- C2 witness: the replacement of the Go unit test
`TestReplaceGTLDContent` (span `(2,4)`, three replacement lines, new
`endIndex` 5). -/
theorem C2_replace_postcondition_witness :
    datFile.ReplaceGTLDContent
        { lines := ["some junk".data, PSL_GTLDS_SECTION_HEADER,
            "here be gTLDs".data, "so many gTLDs".data,
            PSL_GTLDS_SECTION_FOOTER, "more junk".data],
          gTLDSpan := { startIndex := 2, endIndex := 4 } }
        "new gTLD A\nnew gTLD B\nnew gTLD C".data =
      ({ lines := ["some junk".data, PSL_GTLDS_SECTION_HEADER,
          "new gTLD A".data, "new gTLD B".data, "new gTLD C".data,
          PSL_GTLDS_SECTION_FOOTER, "more junk".data],
         gTLDSpan := { startIndex := 2, endIndex := 5 } }, none) := by
  have h := (C2_replace_postcondition
    { lines := ["some junk".data, PSL_GTLDS_SECTION_HEADER,
        "here be gTLDs".data, "so many gTLDs".data,
        PSL_GTLDS_SECTION_FOOTER, "more junk".data],
      gTLDSpan := { startIndex := 2, endIndex := 4 } }
    "new gTLD A\nnew gTLD B\nnew gTLD C".data (by decide)).1
  rw [h]
  decide

/-- C10: replacing the content of a valid `datFile` succeeds and yields a
`datFile` that again passes validation — in particular the new span is
non-empty and its `endIndex` stays strictly below the new line count —
for every content string, including the empty one (which splits into one
empty line). -/
theorem C10_replace_preserves_validity (d : datFile) (c : List Char)
    (hv : d.validate = none) :
    (d.ReplaceGTLDContent c).2 = none ∧
    (d.ReplaceGTLDContent c).1.validate = none ∧
    (d.ReplaceGTLDContent c).1.gTLDSpan.startIndex <
      (d.ReplaceGTLDContent c).1.gTLDSpan.endIndex ∧
    (d.ReplaceGTLDContent c).1.gTLDSpan.endIndex <
      (d.ReplaceGTLDContent c).1.lines.length := by
  obtain ⟨h1, h2, h3⟩ := (datFile_validate_none_iff d).1 hv
  rw [replace_of_valid d c hv]
  have hlen : (d.lines.take d.gTLDSpan.startIndex).length =
      d.gTLDSpan.startIndex := by
    rw [List.length_take]
    omega
  have hdrop : (d.lines.drop d.gTLDSpan.endIndex).length =
      d.lines.length - d.gTLDSpan.endIndex := List.length_drop _ _
  have hpos : 0 < (splitLines c).length := length_splitLines_pos c
  refine ⟨rfl, ?_, by simp only []; omega, ?_⟩
  · rw [datFile_validate_none_iff]
    refine ⟨by simp only []; omega, by simp only []; omega, ?_⟩
    simp only [List.length_append, hlen, hdrop]
    omega
  · simp only [List.length_append, hlen, hdrop]
    omega

/-- C10 witness: replacing with the empty string keeps the file of the Go
unit test valid (span becomes `(2,3)`). -/
theorem C10_replace_preserves_validity_witness :
    (datFile.ReplaceGTLDContent
        { lines := ["some junk".data, PSL_GTLDS_SECTION_HEADER,
            "here be gTLDs".data, "so many gTLDs".data,
            PSL_GTLDS_SECTION_FOOTER, "more junk".data],
          gTLDSpan := { startIndex := 2, endIndex := 4 } } []).2 = none ∧
    (datFile.ReplaceGTLDContent
        { lines := ["some junk".data, PSL_GTLDS_SECTION_HEADER,
            "here be gTLDs".data, "so many gTLDs".data,
            PSL_GTLDS_SECTION_FOOTER, "more junk".data],
          gTLDSpan := { startIndex := 2, endIndex := 4 } } []).1.validate =
      none := by
  have h := C10_replace_preserves_validity
    { lines := ["some junk".data, PSL_GTLDS_SECTION_HEADER,
        "here be gTLDs".data, "so many gTLDs".data,
        PSL_GTLDS_SECTION_FOOTER, "more junk".data],
      gTLDSpan := { startIndex := 2, endIndex := 4 } } [] (by decide)
  exact ⟨h.1, h.2.1⟩

theorem getGTLDLines_ok_inv {d : datFile} {sl : List (List Char)}
    (h : d.getGTLDLines = .ok sl) :
    d.validate = none ∧
      sl = (d.lines.drop d.gTLDSpan.startIndex).take
        (d.gTLDSpan.endIndex - d.gTLDSpan.startIndex) := by
  unfold datFile.getGTLDLines at h
  split at h
  · exact Except.noConfusion h
  · rename_i hv
    exact ⟨hv, by simpa using h.symm⟩

theorem process_of_getGTLDLines_error {d : datFile} {e : datError}
    {fetched : Except datError (List GTLDEntry)} {url ts : List Char}
    (h : d.getGTLDLines = .error e) :
    processGTLDs d fetched url ts = (d, .error e) := by
  unfold processGTLDs
  rw [h]

/-- C7: operations on a `datFile` that fails validation fail closed: both
`getGTLDLines` and `ReplaceGTLDContent` return the validation error with
the file unchanged, `processGTLDs` propagates it with the file unchanged,
and more generally whenever `processGTLDs` returns an error the file state
it leaves behind is the original one — there is no partial-success
state. -/
theorem C7_fail_closed :
    (∀ (d : datFile) (e : datError) (c : List Char)
        (fetched : Except datError (List GTLDEntry)) (url ts : List Char),
      d.validate = some e →
        d.getGTLDLines = .error e ∧
        d.ReplaceGTLDContent c = (d, some e) ∧
        processGTLDs d fetched url ts = (d, .error e)) ∧
    (∀ (d : datFile) (fetched : Except datError (List GTLDEntry))
        (url ts : List Char) (e : datError),
      (processGTLDs d fetched url ts).2 = .error e →
      (processGTLDs d fetched url ts).1 = d) := by
  constructor
  · intro d e c fetched url ts hv
    have hg : d.getGTLDLines = .error e := by
      unfold datFile.getGTLDLines
      rw [hv]
    exact ⟨hg, by unfold datFile.ReplaceGTLDContent; rw [hv],
      process_of_getGTLDLines_error hg⟩
  · intro d fetched url ts e he
    rcases hg : d.getGTLDLines with e' | sl
    · rw [process_of_getGTLDLines_error hg]
    · have hval := (getGTLDLines_ok_inv hg).1
      simp only [processGTLDs, hg] at he ⊢
      split_ifs at he ⊢
      · rfl
      · rcases fetched with e'' | entries
        · rfl
        · simp only [] at he ⊢
          split_ifs at he ⊢
          rw [replace_of_valid d _ hval] at he
          exact absurd he (by simp)

/-- C7 witness: an invalid file (zero span) fails closed through all three
operations, and the error-returning process run leaves the file as it
was. -/
theorem C7_fail_closed_witness :
    ((datFile.mk [] ⟨0, 0⟩).getGTLDLines = .error .errNoHeader ∧
      (datFile.mk [] ⟨0, 0⟩).ReplaceGTLDContent [] =
        (datFile.mk [] ⟨0, 0⟩, some .errNoHeader) ∧
      processGTLDs (datFile.mk [] ⟨0, 0⟩) (.ok []) [] [] =
        (datFile.mk [] ⟨0, 0⟩, .error .errNoHeader)) ∧
    (processGTLDs (datFile.mk [] ⟨0, 0⟩) (.ok []) [] []).1 =
      datFile.mk [] ⟨0, 0⟩ :=
  ⟨C7_fail_closed.1 (datFile.mk [] ⟨0, 0⟩) .errNoHeader [] (.ok []) [] []
      (by decide),
   C7_fail_closed.2 (datFile.mk [] ⟨0, 0⟩) (.ok []) [] [] .errNoHeader
      rfl⟩

/-- C8: an upstream payload that unmarshals to zero entries fails with the
no-information error; a non-empty payload whose normalized entries are all
filtered out fails with the filtered-to-nothing error; and `processGTLDs`
leaves the file untouched whenever the fetch pipeline errors, propagating
the pipeline error verbatim once the span checks pass. -/
theorem C8_empty_feed_errors :
    (∀ u : List GTLDEntry, u = [] →
      getGTLDsFromEntries u = .error .errNoGTLDInfo) ∧
    (∀ u : List GTLDEntry, u ≠ [] →
      filterGTLDs (u.map GTLDEntry.Normalize) = [] →
      getGTLDsFromEntries u = .error .errNoGTLDsAfterFilter) ∧
    (∀ (d : datFile) (e : datError) (url ts : List Char),
      (processGTLDs d (.error e) url ts).1 = d) ∧
    (∀ (d : datFile) (e : datError) (url ts : List Char)
        (sl : List (List Char)),
      d.getGTLDLines = .ok sl →
      (splitLines (renderGTLDHeader url ts)).length < sl.length →
      processGTLDs d (.error e) url ts = (d, .error e)) := by
  refine ⟨?_, ?_, ?_, ?_⟩
  · intro u hu
    subst hu
    simp [getGTLDsFromEntries]
  · intro u hu hfil
    simp [getGTLDsFromEntries, hfil, length_ne_zero_of_ne_nil hu]
  · intro d e url ts
    rcases hg : d.getGTLDLines with e' | sl
    · rw [process_of_getGTLDLines_error hg]
    · simp only [processGTLDs, hg]
      split_ifs <;> rfl
  · intro d e url ts sl hg hlen
    simp only [processGTLDs, hg]
    rw [if_neg (by omega)]

/-- C8 witness: the empty payload, a payload holding only the legacy gTLD
`com`, and a valid file left untouched by an erroring fetch. -/
theorem C8_empty_feed_errors_witness :
    getGTLDsFromEntries [] = .error .errNoGTLDInfo ∧
    getGTLDsFromEntries
        [⟨"com".data, [], [], [], [], false, []⟩] =
      .error .errNoGTLDsAfterFilter ∧
    processGTLDs
        (datFile.mk [[], PSL_GTLDS_SECTION_HEADER, ['a'], ['b'], ['c'],
          ['d'], PSL_GTLDS_SECTION_FOOTER, []] ⟨2, 6⟩)
        (.error .errNoGTLDInfo) [] [] =
      (datFile.mk [[], PSL_GTLDS_SECTION_HEADER, ['a'], ['b'], ['c'],
          ['d'], PSL_GTLDS_SECTION_FOOTER, []] ⟨2, 6⟩,
        .error .errNoGTLDInfo) :=
  ⟨C8_empty_feed_errors.1 [] rfl,
   C8_empty_feed_errors.2.1 [⟨"com".data, [], [], [], [], false, []⟩]
     (by decide) (by decide),
   C8_empty_feed_errors.2.2.2
     (datFile.mk [[], PSL_GTLDS_SECTION_HEADER, ['a'], ['b'], ['c'],
       ['d'], PSL_GTLDS_SECTION_FOOTER, []] ⟨2, 6⟩)
     .errNoGTLDInfo [] [] [['a'], ['b'], ['c'], ['d']]
     rfl (by decide)⟩

theorem IsLegacyGTLD_iff (tld : List Char) :
    IsLegacyGTLD tld = true ↔ (tld.map Char.toLower) ∈ legacyGTLDs := by
  unfold IsLegacyGTLD
  exact List.elem_iff

/-- C5: `filterGTLDs` returns exactly the order-preserving subsequence of
entries that are not excluded, where exclusion is membership of the
lowercased `aLabel` in the fixed 17-name legacy set, or termination with
an empty delegation date, or a non-empty removal date; in particular a
(non-legacy) entry with `contractTerminated` true, a non-empty
`dateOfDelegation` and an empty `removalDate` is kept. -/
theorem C5_filter (entries : List GTLDEntry) :
    filterGTLDs entries =
      entries.filter (fun e => decide (¬ specExcluded e)) ∧
    ∀ e ∈ entries, (e.ALabel.map Char.toLower) ∉ legacyGTLDs →
      e.ContractTerminated = true → e.DateOfDelegation ≠ [] →
      e.RemovalDate = [] → e ∈ filterGTLDs entries := by
  have hmain : ∀ l : List GTLDEntry,
      filterGTLDs l = l.filter (fun e => decide (¬ specExcluded e)) := by
    intro l
    induction l with
    | nil => rfl
    | cons e rest ih =>
      show (if IsLegacyGTLD e.ALabel then filterGTLDs rest
        else if e.ContractTerminated ∧ e.DateOfDelegation = [] then
          filterGTLDs rest
        else if e.RemovalDate ≠ [] then filterGTLDs rest
        else e :: filterGTLDs rest) = _
      by_cases h1 : IsLegacyGTLD e.ALabel = true
      · have hex : specExcluded e := Or.inl ((IsLegacyGTLD_iff _).1 h1)
        rw [if_pos h1, ih, List.filter_cons_of_neg (by simp [hex])]
      · rw [if_neg h1]
        by_cases h2 : e.ContractTerminated = true ∧ e.DateOfDelegation = []
        · have hex : specExcluded e := Or.inr (Or.inl h2)
          rw [if_pos h2, ih, List.filter_cons_of_neg (by simp [hex])]
        · rw [if_neg h2]
          by_cases h3 : e.RemovalDate ≠ []
          · have hex : specExcluded e := Or.inr (Or.inr h3)
            rw [if_pos h3, ih, List.filter_cons_of_neg (by simp [hex])]
          · have hex : ¬ specExcluded e := by
              intro hc
              rcases hc with hc | hc | hc
              · exact h1 ((IsLegacyGTLD_iff _).2 hc)
              · exact h2 hc
              · exact h3 hc
            rw [if_neg h3, ih, List.filter_cons_of_pos (by simp [hex])]
  refine ⟨hmain entries, ?_⟩
  intro e hmem hleg hct hdel hrem
  have hex : ¬ specExcluded e := by
    intro hc
    rcases hc with hc | hc | hc
    · exact hleg hc
    · exact hdel hc.2
    · exact hc hrem
  rw [hmain entries]
  exact List.mem_filter.2 ⟨hmem, by simp [hex]⟩

/-- C5 witness: the spec's own filter test vectors — the legacy name
`aero` and a terminated-before-delegation entry are dropped, a removed
entry is dropped, and a delegated-then-cancelled entry is kept. -/
theorem C5_filter_witness :
    filterGTLDs
        [⟨"aero".data, "aero".data, [], [], [], false, []⟩,
         ⟨"cpu".data, "cpu".data, [], [], [], true, []⟩,
         ⟨"gone".data, "gone".data, [], [], "2020-01-01".data, false,
           "2021-06-06".data⟩,
         ⟨"kept".data, "kept".data, [], [], "2021-06-05".data, true, []⟩] =
      List.filter (fun e => decide (¬ specExcluded e))
        [⟨"aero".data, "aero".data, [], [], [], false, []⟩,
         ⟨"cpu".data, "cpu".data, [], [], [], true, []⟩,
         ⟨"gone".data, "gone".data, [], [], "2020-01-01".data, false,
           "2021-06-06".data⟩,
         ⟨"kept".data, "kept".data, [], [], "2021-06-05".data, true, []⟩] ∧
    (⟨"kept".data, "kept".data, [], [], "2021-06-05".data, true, []⟩ :
        GTLDEntry) ∈
      filterGTLDs
        [⟨"aero".data, "aero".data, [], [], [], false, []⟩,
         ⟨"cpu".data, "cpu".data, [], [], [], true, []⟩,
         ⟨"gone".data, "gone".data, [], [], "2020-01-01".data, false,
           "2021-06-06".data⟩,
         ⟨"kept".data, "kept".data, [], [], "2021-06-05".data, true, []⟩] :=
  ⟨(C5_filter _).1,
   (C5_filter _).2 _ (by decide) (by decide) (by decide) (by decide)
     (by decide)⟩

/-- C9: a text whose very first line (index 0) is the header sentinel and
that holds no other header line parses to the missing-header error, even
when a footer sentinel occurs later — index 0 doubles as the scanner's
not-yet-seen marker. -/
theorem C9_header_on_first_line (t : List Char) (rest : List (List Char))
    (hsplit : splitLines t = PSL_GTLDS_SECTION_HEADER :: rest)
    (hrest : PSL_GTLDS_SECTION_HEADER ∉ rest) :
    readDatFileContent t = .error .errNoHeader := by
  obtain ⟨f', hscan⟩ := scanLoop_noHeader rest hrest 1 0 0
  simp only [readDatFileContent]
  rw [hsplit, scanLoop_cons_header_new, if_neg (by simp), Nat.zero_add,
    hscan]
  rfl

/-- C9 witness: a file opening with the header line and holding a valid
footer still reports the missing header. -/
theorem C9_header_on_first_line_witness :
    readDatFileContent
        "// newGTLDs\nfoo\n// ===END ICANN DOMAINS===".data =
      .error .errNoHeader :=
  C9_header_on_first_line _ ["foo".data, PSL_GTLDS_SECTION_FOOTER]
    (by decide) (by decide)

/-- C1: round trip — on every text that `readDatFileContent` parses
successfully, extracting the span lines with `getGTLDLines`, replacing
with exactly those lines re-joined by newlines, and serializing with
`String` reproduces the original text byte for byte. -/
theorem C1_roundtrip (t : List Char) (df : datFile)
    (hread : readDatFileContent t = .ok df) :
    ∃ ls, df.getGTLDLines = .ok ls ∧
      (df.ReplaceGTLDContent (joinLines ls)).2 = none ∧
      (df.ReplaceGTLDContent (joinLines ls)).1.String = t := by
  obtain ⟨hlines, hval⟩ := readDatFileContent_ok_inv hread
  obtain ⟨h1, h2, h3⟩ := (datFile_validate_none_iff df).1 hval
  refine ⟨(df.lines.drop df.gTLDSpan.startIndex).take
    (df.gTLDSpan.endIndex - df.gTLDSpan.startIndex),
    getGTLDLines_of_valid df hval, ?_, ?_⟩
  · rw [replace_of_valid df _ hval]
  · have hnn : ∀ l ∈ (df.lines.drop df.gTLDSpan.startIndex).take
        (df.gTLDSpan.endIndex - df.gTLDSpan.startIndex), '\n' ∉ l := by
      intro l hl
      have hm : l ∈ df.lines :=
        List.drop_subset _ _ (List.take_subset _ _ hl)
      rw [hlines] at hm
      exact no_newline_of_mem_splitLines hm
    have hne : (df.lines.drop df.gTLDSpan.startIndex).take
        (df.gTLDSpan.endIndex - df.gTLDSpan.startIndex) ≠ [] := by
      apply List.ne_nil_of_length_pos
      rw [length_spanLines df hval]
      omega
    rw [replace_of_valid df _ hval]
    show joinLines (df.lines.take df.gTLDSpan.startIndex ++
      splitLines (joinLines _) ++ df.lines.drop df.gTLDSpan.endIndex) = t
    rw [splitLines_joinLines _ hne hnn]
    have hsplice : df.lines.take df.gTLDSpan.startIndex ++
        (df.lines.drop df.gTLDSpan.startIndex).take
          (df.gTLDSpan.endIndex - df.gTLDSpan.startIndex) ++
        df.lines.drop df.gTLDSpan.endIndex = df.lines := by
      rw [List.append_assoc]
      have htake : df.lines.take df.gTLDSpan.endIndex =
          df.lines.take df.gTLDSpan.startIndex ++
            (df.lines.drop df.gTLDSpan.startIndex).take
              (df.gTLDSpan.endIndex - df.gTLDSpan.startIndex) := by
        have harith : df.gTLDSpan.startIndex +
            (df.gTLDSpan.endIndex - df.gTLDSpan.startIndex) =
            df.gTLDSpan.endIndex := by omega
        rw [← List.take_add df.lines df.gTLDSpan.startIndex
          (df.gTLDSpan.endIndex - df.gTLDSpan.startIndex), harith]
      calc df.lines.take df.gTLDSpan.startIndex ++
          ((df.lines.drop df.gTLDSpan.startIndex).take
            (df.gTLDSpan.endIndex - df.gTLDSpan.startIndex) ++
            df.lines.drop df.gTLDSpan.endIndex)
          = df.lines.take df.gTLDSpan.endIndex ++
            df.lines.drop df.gTLDSpan.endIndex := by
            rw [htake, List.append_assoc]
        _ = df.lines := List.take_append_drop _ _
    rw [hsplice, hlines, joinLines_splitLines]

/-- C1 witness: the valid file of the Go unit test `TestReadDatFile` round
trips byte for byte. -/
theorem C1_roundtrip_witness :
    ∃ ls, (datFile.mk
        ["foo".data, PSL_GTLDS_SECTION_HEADER, "test".data,
          PSL_GTLDS_SECTION_FOOTER, "bar".data] ⟨2, 3⟩).getGTLDLines =
      .ok ls ∧
    ((datFile.mk
        ["foo".data, PSL_GTLDS_SECTION_HEADER, "test".data,
          PSL_GTLDS_SECTION_FOOTER, "bar".data] ⟨2, 3⟩).ReplaceGTLDContent
      (joinLines ls)).2 = none ∧
    ((datFile.mk
        ["foo".data, PSL_GTLDS_SECTION_HEADER, "test".data,
          PSL_GTLDS_SECTION_FOOTER, "bar".data] ⟨2, 3⟩).ReplaceGTLDContent
      (joinLines ls)).1.String =
      "foo\n// newGTLDs\ntest\n// ===END ICANN DOMAINS===\nbar".data :=
  C1_roundtrip "foo\n// newGTLDs\ntest\n// ===END ICANN DOMAINS===\nbar".data
    (datFile.mk
      ["foo".data, PSL_GTLDS_SECTION_HEADER, "test".data,
        PSL_GTLDS_SECTION_FOOTER, "bar".data] ⟨2, 3⟩)
    rfl

/-- C3: locate semantics of the top-to-bottom scan, in five parts over a
file whose sentinel occurrences sit at positive line indices (the line-0
degeneracy is the separate claim about the not-yet-seen marker):
a second header occurrence before any footer is the hard
duplicate-header error; scanning stops once both indices are recorded, so
appending text after the footer changes neither the span nor the result;
with no header line at all the result is the missing-header error
(so header takes precedence when both markers are absent); with a header
but no footer the result is the missing-footer error; and otherwise the
span is `startIndex = headerIndex + 1`, `endIndex = footerIndex`, taken
from the first occurrences. -/
theorem C3_locate_semantics :
    (∀ (t : List Char) (pre mid rest : List (List Char)),
      splitLines t = pre ++ (PSL_GTLDS_SECTION_HEADER ::
        (mid ++ PSL_GTLDS_SECTION_HEADER :: rest)) →
      pre ≠ [] →
      PSL_GTLDS_SECTION_HEADER ∉ pre → PSL_GTLDS_SECTION_FOOTER ∉ pre →
      PSL_GTLDS_SECTION_HEADER ∉ mid → PSL_GTLDS_SECTION_FOOTER ∉ mid →
      readDatFileContent t = .error .errMultipleHeaders) ∧
    (∀ (t t2 : List Char) (pre mid rest : List (List Char)),
      splitLines t = pre ++ (PSL_GTLDS_SECTION_HEADER ::
        (mid ++ PSL_GTLDS_SECTION_FOOTER :: rest)) →
      pre ≠ [] → mid ≠ [] →
      PSL_GTLDS_SECTION_HEADER ∉ pre → PSL_GTLDS_SECTION_FOOTER ∉ pre →
      PSL_GTLDS_SECTION_HEADER ∉ mid → PSL_GTLDS_SECTION_FOOTER ∉ mid →
      readDatFileContent (t ++ '\n' :: t2) = .ok
        { lines := splitLines t ++ splitLines t2,
          gTLDSpan := { startIndex := pre.length + 1,
                        endIndex := pre.length + 1 + mid.length } }) ∧
    (∀ t : List Char, PSL_GTLDS_SECTION_HEADER ∉ splitLines t →
      readDatFileContent t = .error .errNoHeader) ∧
    (∀ (t : List Char) (pre rest : List (List Char)),
      splitLines t = pre ++ (PSL_GTLDS_SECTION_HEADER :: rest) →
      pre ≠ [] →
      PSL_GTLDS_SECTION_HEADER ∉ pre → PSL_GTLDS_SECTION_FOOTER ∉ pre →
      PSL_GTLDS_SECTION_HEADER ∉ rest → PSL_GTLDS_SECTION_FOOTER ∉ rest →
      readDatFileContent t = .error .errNoFooter) ∧
    (∀ (t : List Char) (pre mid rest : List (List Char)),
      splitLines t = pre ++ (PSL_GTLDS_SECTION_HEADER ::
        (mid ++ PSL_GTLDS_SECTION_FOOTER :: rest)) →
      pre ≠ [] → mid ≠ [] →
      PSL_GTLDS_SECTION_HEADER ∉ pre → PSL_GTLDS_SECTION_FOOTER ∉ pre →
      PSL_GTLDS_SECTION_HEADER ∉ mid → PSL_GTLDS_SECTION_FOOTER ∉ mid →
      readDatFileContent t = .ok
        { lines := splitLines t,
          gTLDSpan := { startIndex := pre.length + 1,
                        endIndex := pre.length + 1 + mid.length } }) := by
  refine ⟨?_, ?_, ?_, ?_, ?_⟩
  · intro t pre mid rest hsplit hpre hpreH hpreF hmidH hmidF
    simp only [readDatFileContent]
    rw [hsplit, scanLoop_multiheader pre mid rest hpre hpreH hpreF hmidH
      hmidF]
  · intro t t2 pre mid rest hsplit hpre hmid hpreH hpreF hmidH hmidF
    have hsplit2 : splitLines (t ++ '\n' :: t2) =
        pre ++ (PSL_GTLDS_SECTION_HEADER ::
          (mid ++ PSL_GTLDS_SECTION_FOOTER :: (rest ++ splitLines t2))) := by
      rw [splitLines_append_newline, hsplit]
      simp
    have h := readDatFileContent_locate (t ++ '\n' :: t2) pre mid
      (rest ++ splitLines t2) hsplit2 hpre hmid hpreH hpreF hmidH hmidF
    rw [splitLines_append_newline] at h
    exact h
  · intro t ht
    obtain ⟨f', hscan⟩ := scanLoop_noHeader (splitLines t) ht 0 0 0
    simp only [readDatFileContent]
    rw [hscan]
    rfl
  · intro t pre rest hsplit hpre hpreH hpreF hrestH hrestF
    simp only [readDatFileContent]
    rw [hsplit, scanLoop_headerOnly pre rest hpreH hpreF hrestH hrestF]
    simp [length_ne_zero_of_ne_nil hpre]
  · intro t pre mid rest hsplit hpre hmid hpreH hpreF hmidH hmidF
    exact readDatFileContent_locate t pre mid rest hsplit hpre hmid hpreH
      hpreF hmidH hmidF

/-- C3 witness: the five locate behaviours evaluated on the concrete
files of the Go unit test `TestReadDatFile` (duplicate headers, early
stop past the footer, absent header, absent footer, and the valid
file). -/
theorem C3_locate_semantics_witness :
    readDatFileContent
        "foo\n// newGTLDs\ntest\n// newGTLDs\ntest\n// ===END ICANN DOMAINS===\nbar".data =
      .error .errMultipleHeaders ∧
    readDatFileContent
        ("foo\n// newGTLDs\ntest\n// ===END ICANN DOMAINS===".data ++
          '\n' :: "bar".data) = .ok
      { lines := splitLines "foo\n// newGTLDs\ntest\n// ===END ICANN DOMAINS===".data ++
          splitLines "bar".data,
        gTLDSpan := { startIndex := 2, endIndex := 3 } } ∧
    readDatFileContent "foo\nbar\n// ===END ICANN DOMAINS===".data =
      .error .errNoHeader ∧
    readDatFileContent "foo\n// newGTLDs\nbar".data =
      .error .errNoFooter ∧
    readDatFileContent
        "foo\n// newGTLDs\ntest\n// ===END ICANN DOMAINS===\nbar".data =
      .ok
      { lines :=
          splitLines "foo\n// newGTLDs\ntest\n// ===END ICANN DOMAINS===\nbar".data,
        gTLDSpan := { startIndex := 2, endIndex := 3 } } := by
  refine ⟨?_, ?_, ?_, ?_, ?_⟩
  · exact C3_locate_semantics.1 _ ["foo".data]
      ["test".data] ["test".data, PSL_GTLDS_SECTION_FOOTER, "bar".data]
      (by decide) (by decide) (by decide) (by decide) (by decide)
      (by decide)
  · have h := C3_locate_semantics.2.1
      "foo\n// newGTLDs\ntest\n// ===END ICANN DOMAINS===".data "bar".data
      ["foo".data] ["test".data] [] (by decide) (by decide) (by decide)
      (by decide) (by decide) (by decide) (by decide)
    simpa using h
  · exact C3_locate_semantics.2.2.1 _ (by decide)
  · exact C3_locate_semantics.2.2.2.1 _ ["foo".data] ["bar".data]
      (by decide) (by decide) (by decide) (by decide) (by decide)
      (by decide)
  · have h := C3_locate_semantics.2.2.2.2
      "foo\n// newGTLDs\ntest\n// ===END ICANN DOMAINS===\nbar".data
      ["foo".data] ["test".data] ["bar".data] (by decide) (by decide)
      (by decide) (by decide) (by decide) (by decide) (by decide)
    simpa using h

theorem splitLines_cons_newline (s : List Char) :
    splitLines ('\n' :: s) = [] :: splitLines s := by
  rw [splitLines_eq, splitLinesCore_cons_newline]
  rfl

/-- The rendered header always splits into exactly three lines (the
template's leading blank line and its two comment lines), for every
newline-free URL and timestamp. -/
theorem splitLines_renderGTLDHeader (url ts : List Char)
    (hu : '\n' ∉ url) (ht : '\n' ∉ ts) :
    splitLines (renderGTLDHeader url ts) =
      [[],
       "// List of new gTLDs imported from ".data ++ url ++ " on ".data ++
         ts,
       "// This list is auto-generated, don".data ++ apos ::
         "t edit it manually.".data] := by
  have h1 : '\n' ∉ "// List of new gTLDs imported from ".data ++ url ++
      " on ".data ++ ts := by
    simp only [List.mem_append, not_or]
    exact ⟨⟨⟨by decide, hu⟩, by decide⟩, ht⟩
  have h2 : '\n' ∉ "// This list is auto-generated, don".data ++ apos ::
      "t edit it manually.".data := by decide
  unfold renderGTLDHeader
  rw [splitLines_append_newline, splitLines_cons_newline,
    splitLines_no_newline h1, splitLines_no_newline h2]
  rfl

theorem length_splitLines_renderGTLDHeader (url ts : List Char)
    (hu : '\n' ∉ url) (ht : '\n' ∉ ts) :
    (splitLines (renderGTLDHeader url ts)).length = 3 := by
  rw [splitLines_renderGTLDHeader url ts hu ht]
  rfl

/-- When the freshly rendered body equals the stored body, `processGTLDs`
takes the no-mutation branch and returns the serialized original file. -/
theorem process_no_change (d : datFile) (entries : List GTLDEntry)
    (url ts : List Char) (sl : List (List Char))
    (hget : d.getGTLDLines = .ok sl)
    (hlen : (splitLines (renderGTLDHeader url ts)).length < sl.length)
    (hdata : renderGTLDData entries =
      joinLines (sl.drop (splitLines (renderGTLDHeader url ts)).length)) :
    processGTLDs d (.ok entries) url ts = (d, .ok d.String) := by
  simp only [processGTLDs, hget]
  rw [if_neg (by omega), if_neg (not_not_intro hdata)]

/-- After a replace that installed a freshly rendered header and body, a
further process run with the same entries — under any clock — finds the
stored body equal to the rendered body and changes nothing. -/
theorem process_after_replace (d : datFile) (entries : List GTLDEntry)
    (url ts ts' : List Char) (hu : '\n' ∉ url) (ht : '\n' ∉ ts)
    (ht' : '\n' ∉ ts') (hval : d.validate = none) :
    processGTLDs
      (d.ReplaceGTLDContent (renderGTLDHeader url ts ++ '\n' ::
        renderGTLDData entries)).1 (.ok entries) url ts' =
      ((d.ReplaceGTLDContent (renderGTLDHeader url ts ++ '\n' ::
          renderGTLDData entries)).1,
       .ok (d.ReplaceGTLDContent (renderGTLDHeader url ts ++ '\n' ::
          renderGTLDData entries)).1.String) := by
  obtain ⟨h1, h2, h3⟩ := (datFile_validate_none_iff d).1 hval
  have hsplitnc : splitLines (renderGTLDHeader url ts ++ '\n' ::
      renderGTLDData entries) =
      splitLines (renderGTLDHeader url ts) ++
        splitLines (renderGTLDData entries) :=
    splitLines_append_newline _ _
  have hlen3 := length_splitLines_renderGTLDHeader url ts hu ht
  have hlen3' := length_splitLines_renderGTLDHeader url ts' hu ht'
  have hdpos := length_splitLines_pos (renderGTLDData entries)
  rw [replace_of_valid d _ hval]
  have htakelen : (d.lines.take d.gTLDSpan.startIndex).length =
      d.gTLDSpan.startIndex := by
    rw [List.length_take]
    omega
  have hlines : (d.lines.take d.gTLDSpan.startIndex ++
      splitLines (renderGTLDHeader url ts ++ '\n' ::
        renderGTLDData entries) ++
      d.lines.drop d.gTLDSpan.endIndex).length =
      d.gTLDSpan.startIndex +
        (splitLines (renderGTLDHeader url ts ++ '\n' ::
          renderGTLDData entries)).length +
        (d.lines.length - d.gTLDSpan.endIndex) := by
    simp only [List.length_append, htakelen, List.length_drop]
  have hval' : datFile.validate
      { lines := d.lines.take d.gTLDSpan.startIndex ++
          splitLines (renderGTLDHeader url ts ++ '\n' ::
            renderGTLDData entries) ++
          d.lines.drop d.gTLDSpan.endIndex,
        gTLDSpan := { startIndex := d.gTLDSpan.startIndex,
                      endIndex := d.gTLDSpan.startIndex +
                        (splitLines (renderGTLDHeader url ts ++ '\n' ::
                          renderGTLDData entries)).length } } = none := by
    rw [datFile_validate_none_iff]
    refine ⟨by simp only []; omega, ?_, ?_⟩
    · have := length_splitLines_pos (renderGTLDHeader url ts ++ '\n' ::
        renderGTLDData entries)
      simp only []
      omega
    · simp only [hlines]
      omega
  have hslice : ((d.lines.take d.gTLDSpan.startIndex ++
      splitLines (renderGTLDHeader url ts ++ '\n' ::
        renderGTLDData entries) ++
      d.lines.drop d.gTLDSpan.endIndex).drop d.gTLDSpan.startIndex).take
        (d.gTLDSpan.startIndex +
          (splitLines (renderGTLDHeader url ts ++ '\n' ::
            renderGTLDData entries)).length - d.gTLDSpan.startIndex) =
      splitLines (renderGTLDHeader url ts ++ '\n' ::
        renderGTLDData entries) := by
    rw [List.append_assoc, List.drop_left' htakelen,
      Nat.add_sub_cancel_left, List.take_left]
  have hget' : datFile.getGTLDLines
      { lines := d.lines.take d.gTLDSpan.startIndex ++
          splitLines (renderGTLDHeader url ts ++ '\n' ::
            renderGTLDData entries) ++
          d.lines.drop d.gTLDSpan.endIndex,
        gTLDSpan := { startIndex := d.gTLDSpan.startIndex,
                      endIndex := d.gTLDSpan.startIndex +
                        (splitLines (renderGTLDHeader url ts ++ '\n' ::
                          renderGTLDData entries)).length } } =
      .ok (splitLines (renderGTLDHeader url ts ++ '\n' ::
        renderGTLDData entries)) := by
    rw [getGTLDLines_of_valid _ hval']
    exact congrArg Except.ok hslice
  apply process_no_change _ entries url ts' _ hget'
  · rw [hlen3', hsplitnc, List.length_append, hlen3]
    omega
  · rw [hlen3', hsplitnc, ← hlen3, List.drop_left,
      joinLines_splitLines]

/-- C6: idempotence. When the rendered body equals the existing span body
(the span lines after skipping the new header's line count), `processGTLDs`
performs no mutation and returns the original file text. Consequently a
successful run — whether or not it replaced the span — followed by a run
against the resulting file with unchanged upstream entries performs no
further change and yields byte-identical output, for any clock value used
for the second header timestamp. -/
theorem C6_idempotence :
    (∀ (d : datFile) (entries : List GTLDEntry) (url ts : List Char)
        (sl : List (List Char)),
      d.getGTLDLines = .ok sl →
      (splitLines (renderGTLDHeader url ts)).length < sl.length →
      renderGTLDData entries =
        joinLines (sl.drop (splitLines (renderGTLDHeader url ts)).length) →
      processGTLDs d (.ok entries) url ts = (d, .ok d.String)) ∧
    (∀ (d d₁ : datFile) (entries : List GTLDEntry)
        (url ts ts' out : List Char),
      '\n' ∉ url → '\n' ∉ ts → '\n' ∉ ts' →
      processGTLDs d (.ok entries) url ts = (d₁, .ok out) →
      processGTLDs d₁ (.ok entries) url ts' = (d₁, .ok out)) := by
  constructor
  · exact process_no_change
  · intro d d₁ entries url ts ts' out hu ht ht' hrun
    have hlen3 := length_splitLines_renderGTLDHeader url ts hu ht
    have hlen3' := length_splitLines_renderGTLDHeader url ts' hu ht'
    rcases hget : d.getGTLDLines with e | sl
    · rw [process_of_getGTLDLines_error hget] at hrun
      exact absurd (congrArg Prod.snd hrun) (by simp)
    · have hval := (getGTLDLines_ok_inv hget).1
      simp only [processGTLDs, hget] at hrun
      by_cases hsmall : sl.length ≤
          (splitLines (renderGTLDHeader url ts)).length
      · rw [if_pos hsmall] at hrun
        exact absurd (congrArg Prod.snd hrun) (by simp)
      · rw [if_neg hsmall] at hrun
        by_cases hd : renderGTLDData entries =
            joinLines (sl.drop (splitLines (renderGTLDHeader url ts)).length)
        · rw [if_neg (not_not_intro hd)] at hrun
          injection hrun with hda hout
          subst hda
          obtain rfl : out = d.String := by simpa using hout.symm
          apply process_no_change d entries url ts' sl hget
          · rw [hlen3']
            rw [hlen3] at hsmall
            omega
          · rw [hlen3']
            rw [hlen3] at hd
            exact hd
        · rw [if_pos hd] at hrun
          rcases hrep : d.ReplaceGTLDContent (renderGTLDHeader url ts ++
            '\n' :: renderGTLDData entries) with ⟨d', oe⟩
          rw [hrep] at hrun
          have hnone : oe = none := by
            have := congrArg Prod.snd (hrep.symm.trans
              (replace_of_valid d _ hval))
            simpa using this
          subst hnone
          simp only [] at hrun
          injection hrun with hda hout
          subst hda
          have hout' : out = d'.String := by
            simpa using hout.symm
          subst hout'
          have happ := process_after_replace d entries url ts ts' hu ht ht'
            hval
          rw [hrep] at happ
          simpa using happ

/-- C6 witness: on a file whose span already stores the render of the
single entry `cpu`, a process run with that entry and one clock value
changes nothing, and a second run with a different clock value returns
the same bytes. -/
theorem C6_idempotence_witness :
    processGTLDs
        (datFile.mk ["junk".data, PSL_GTLDS_SECTION_HEADER, [],
          "old header line one".data, "old header line two".data,
          "// cpu : 2019-06-13".data, "ｃｐｕ".data, [], [],
          PSL_GTLDS_SECTION_FOOTER, "tail".data] ⟨2, 9⟩)
        (.ok [⟨"cpu".data, "ｃｐｕ".data, [], "2019-06-13".data, [],
          false, []⟩])
        "U".data "T".data =
      ((datFile.mk ["junk".data, PSL_GTLDS_SECTION_HEADER, [],
          "old header line one".data, "old header line two".data,
          "// cpu : 2019-06-13".data, "ｃｐｕ".data, [], [],
          PSL_GTLDS_SECTION_FOOTER, "tail".data] ⟨2, 9⟩),
        .ok (datFile.String (datFile.mk ["junk".data,
          PSL_GTLDS_SECTION_HEADER, [],
          "old header line one".data, "old header line two".data,
          "// cpu : 2019-06-13".data, "ｃｐｕ".data, [], [],
          PSL_GTLDS_SECTION_FOOTER, "tail".data] ⟨2, 9⟩))) ∧
    processGTLDs
        (datFile.mk ["junk".data, PSL_GTLDS_SECTION_HEADER, [],
          "old header line one".data, "old header line two".data,
          "// cpu : 2019-06-13".data, "ｃｐｕ".data, [], [],
          PSL_GTLDS_SECTION_FOOTER, "tail".data] ⟨2, 9⟩)
        (.ok [⟨"cpu".data, "ｃｐｕ".data, [], "2019-06-13".data, [],
          false, []⟩])
        "U".data "2021-02-10T00:24:14Z".data =
      ((datFile.mk ["junk".data, PSL_GTLDS_SECTION_HEADER, [],
          "old header line one".data, "old header line two".data,
          "// cpu : 2019-06-13".data, "ｃｐｕ".data, [], [],
          PSL_GTLDS_SECTION_FOOTER, "tail".data] ⟨2, 9⟩),
        .ok (datFile.String (datFile.mk ["junk".data,
          PSL_GTLDS_SECTION_HEADER, [],
          "old header line one".data, "old header line two".data,
          "// cpu : 2019-06-13".data, "ｃｐｕ".data, [], [],
          PSL_GTLDS_SECTION_FOOTER, "tail".data] ⟨2, 9⟩))) := by
  have hrun1 := C6_idempotence.1
    (datFile.mk ["junk".data, PSL_GTLDS_SECTION_HEADER, [],
      "old header line one".data, "old header line two".data,
      "// cpu : 2019-06-13".data, "ｃｐｕ".data, [], [],
      PSL_GTLDS_SECTION_FOOTER, "tail".data] ⟨2, 9⟩)
    [⟨"cpu".data, "ｃｐｕ".data, [], "2019-06-13".data, [], false, []⟩]
    "U".data "T".data
    [[], "old header line one".data, "old header line two".data,
      "// cpu : 2019-06-13".data, "ｃｐｕ".data, [], []]
    rfl (by decide) (by decide)
  exact ⟨hrun1,
    C6_idempotence.2 _ _ _ "U".data "T".data "2021-02-10T00:24:14Z".data _
      (by decide) (by decide) (by decide) hrun1⟩

end NewGTLDs
